import Mathlib

/-!
Verification of the disk_scanner scanning engine (src/scanner.rs) against its
natural-language specification.

The filesystem is modelled as an inductive tree recording, for each directory,
the outcome of `fs::read_dir` and, for each entry, the outcomes of the
asynchronous calls the scanner makes on it (`next_entry`, `file_type`,
`metadata`).  The traversal `walk_directory_recursive` is translated from
src/scanner.rs lines 46-223; `run_scan` from lines 230-299.  The tokio mpsc
progress channel is modelled by the list of events an invocation sends
(field `events`); the semaphore-bounded concurrency is modelled separately by
a small-step task system at the end of the definitions.
-/

namespace DiskScanner

/-- The progress events of src/progress.rs (`ProgressUpdate`). -/
inductive ProgressUpdate where
  | NewItemFound : ProgressUpdate
  | BytesProcessed (bytes : Nat) : ProgressUpdate
  | ErrorEncountered : ProgressUpdate
  | ScanCompleted : ProgressUpdate
deriving DecidableEq, Repr

/-- Scan errors of src/scanner.rs (`ScanError`).  Paths are modelled as lists
of path components; the `std::io::Error` payloads carry no information the
scanner inspects, so they are dropped. -/
inductive ScanError where
  | IoError (path : List String) : ScanError
  | NotADirectory (path : List String) : ScanError
  | MetadataError (path : List String) : ScanError
deriving DecidableEq, Repr

/-- The scanner configuration (src/scanner.rs `ScannerConfig`).  The compiled
regex is modelled as a predicate on file names, which is the only way the
scanner uses it (`pattern.is_match(file_name)`). -/
structure ScannerConfig where
  target_path : List String
  max_concurrent_tasks : Nat
  follow_symlinks : Bool
  include_hidden : Bool
  progress_updates : Bool
  verbose : Bool
  file_pattern : Option (String → Bool)

/-- Outcome of `entry.metadata()` for a regular file: its byte size, or an
I/O failure. -/
inductive MetaResult where
  | ok (size : Nat) : MetaResult
  | err : MetaResult
deriving DecidableEq, Repr

mutual
/-- Outcome of `fs::read_dir` on a directory: failure, or the sequence of
results that its `next_entry` iteration yields. -/
inductive ReadDirResult where
  | fail : ReadDirResult
  | ok (entries : List EntryResult) : ReadDirResult

/-- One step of the `next_entry` iteration: an error (`Err(e)` at line 83 of
scanner.rs), or an entry with a name and a kind. -/
inductive EntryResult where
  | fetchErr : EntryResult
  | entry (name : String) (kind : EntryKind) : EntryResult

/-- What the scanner learns about one directory entry: `entry.file_type()`
failure, a regular file with its metadata outcome, a subdirectory with its
own listing, a symbolic link with its target-resolution outcome, or any
other kind (device, socket, fifo). -/
inductive EntryKind where
  | typeErr : EntryKind
  | file (meta : MetaResult) : EntryKind
  | dir (contents : ReadDirResult) : EntryKind
  | symlink (target : SymMeta) : EntryKind
  | other : EntryKind

/-- Outcome of `fs::metadata` on a symlink's path (which follows the link):
failure, a regular-file target with its size, a directory target with its
listing, or some other target kind. -/
inductive SymMeta where
  | err : SymMeta
  | file (size : Nat) : SymMeta
  | dir (contents : ReadDirResult) : SymMeta
  | other : SymMeta
end

/-- The partial result produced by one traversal invocation: the five
components of the tuple returned by `walk_directory_recursive`
(files_count, dirs_count, current_size, errors, matching_files), plus the
list of progress events the invocation sends on the channel. -/
structure WalkResult where
  files_count : Nat
  dirs_count : Nat
  current_size : Nat
  errors : List ScanError
  matching_files : List (List String)
  events : List ProgressUpdate
deriving DecidableEq, Repr

/-- The all-zero, all-empty partial result. -/
def WalkResult.empty : WalkResult :=
  { files_count := 0, dirs_count := 0, current_size := 0,
    errors := [], matching_files := [], events := [] }

/-- Merging a child partial result into a parent's (scanner.rs lines
206-212): counts and sizes add, error and match lists concatenate. -/
def WalkResult.merge (a b : WalkResult) : WalkResult :=
  { files_count := a.files_count + b.files_count,
    dirs_count := a.dirs_count + b.dirs_count,
    current_size := a.current_size + b.current_size,
    errors := a.errors ++ b.errors,
    matching_files := a.matching_files ++ b.matching_files,
    events := a.events ++ b.events }

/-- Rust's `file_name.starts_with('.')`: the first character is a dot.
(`String.startsWith` is avoided only because its byte-level implementation
does not reduce in the kernel; this is the same predicate.) -/
def startsWithDot (name : String) : Bool :=
  match name.data with
  | [] => false
  | c :: _ => c == '.'

/-- The hidden-entry skip test of scanner.rs lines 102-108: with
`include_hidden` off, a name starting with `.` (other than `.` and `..`)
is skipped. -/
def hiddenSkip (cfg : ScannerConfig) (name : String) : Bool :=
  !cfg.include_hidden && startsWithDot name && name != "." && name != ".."

/-- Events actually sent: every `tx.send` site is guarded by
`if let Some(tx) = &progress_tx`, and `run_scan` passes `Some` exactly when
`progress_updates` is set. -/
def sendEvents (cfg : ScannerConfig) (evs : List ProgressUpdate) : List ProgressUpdate :=
  if cfg.progress_updates then evs else []

/-- The pattern check of scanner.rs lines 158-165: performed on the entry's
file name only, pushing the full path on a match. -/
def matchList (cfg : ScannerConfig) (name : String) (path : List String) :
    List (List String) :=
  match cfg.file_pattern with
  | some pat => if pat name then [path] else []
  | none => []

mutual
/-- `walk_directory_recursive` (scanner.rs lines 46-223), as a function of
the modelled `read_dir` outcome at `path`.  Returns the invocation's partial
result; children's results are merged after the invocation's own loop, in
spawn order, matching the sequential await loop at lines 204-220. -/
def walk_directory_recursive (cfg : ScannerConfig) (path : List String) :
    ReadDirResult → WalkResult
  | .fail =>
      { files_count := 0, dirs_count := 0, current_size := 0,
        errors := [.IoError path], matching_files := [],
        events := sendEvents cfg [.ErrorEncountered] }
  | .ok es =>
      let p := walkEntries cfg path es
      p.1.merge p.2
termination_by structural r => r

/-- The per-entry loop of `walk_directory_recursive` (lines 80-181) over a
list of `next_entry` outcomes.  First component: the invocation's own
accumulators; second component: the merged results of the recursive
traversals of the subdirectories queued by these entries. -/
def walkEntries (cfg : ScannerConfig) (path : List String) :
    List EntryResult → WalkResult × WalkResult
  | [] => (WalkResult.empty, WalkResult.empty)
  | e :: rest =>
      let p := processEntry cfg path e
      let ps := walkEntries cfg path rest
      (p.1.merge ps.1, p.2.merge ps.2)
termination_by structural es => es

/-- Processing of a single directory entry (scanner.rs lines 85-180).
First component: the entry's direct contribution to the invocation's
accumulators; second component: the result of the recursive traversal it
queues (empty unless the entry is a directory, or a followed symlink to
one). -/
def processEntry (cfg : ScannerConfig) (path : List String) :
    EntryResult → WalkResult × WalkResult
  | .fetchErr =>
      ({ WalkResult.empty with
          errors := [.IoError path],
          events := sendEvents cfg [.ErrorEncountered] },
        WalkResult.empty)
  | .entry name kind =>
      if hiddenSkip cfg name then (WalkResult.empty, WalkResult.empty)
      else
        match kind with
        | .typeErr =>
            ({ WalkResult.empty with
                errors := [.IoError (path ++ [name])],
                events := sendEvents cfg [.ErrorEncountered] },
              WalkResult.empty)
        | .symlink sm =>
            if cfg.follow_symlinks then
              match sm with
              | .file sz =>
                  ({ WalkResult.empty with
                      files_count := 1, current_size := sz,
                      events := sendEvents cfg [.NewItemFound, .BytesProcessed sz] },
                    WalkResult.empty)
              | .dir contents =>
                  ({ WalkResult.empty with
                      dirs_count := 1,
                      events := sendEvents cfg [.NewItemFound] },
                    walk_directory_recursive cfg (path ++ [name]) contents)
              | .other => (WalkResult.empty, WalkResult.empty)
              | .err =>
                  ({ WalkResult.empty with
                      errors := [.MetadataError (path ++ [name])],
                      events := sendEvents cfg [.ErrorEncountered] },
                    WalkResult.empty)
            else (WalkResult.empty, WalkResult.empty)
        | .file m =>
            match m with
            | .ok sz =>
                ({ WalkResult.empty with
                    files_count := 1, current_size := sz,
                    matching_files := matchList cfg name (path ++ [name]),
                    events := sendEvents cfg [.NewItemFound, .BytesProcessed sz] },
                  WalkResult.empty)
            | .err =>
                ({ WalkResult.empty with
                    errors := [.MetadataError (path ++ [name])],
                    events := sendEvents cfg [.ErrorEncountered] },
                  WalkResult.empty)
        | .dir contents =>
            ({ WalkResult.empty with
                dirs_count := 1,
                events := sendEvents cfg [.NewItemFound] },
              walk_directory_recursive cfg (path ++ [name]) contents)
        | .other => (WalkResult.empty, WalkResult.empty)
termination_by structural e => e
end

/-- Outcome of the root-path check of `run_scan` (scanner.rs lines 235-244):
`fs::metadata` failure, a non-directory, or a directory with its listing. -/
inductive RootMeta where
  | metaErr : RootMeta
  | notDir : RootMeta
  | dir (contents : ReadDirResult) : RootMeta

/-- The aggregate result (`ScanResult` of scanner.rs), without the
wall-clock `scan_duration`, which has no functional content. -/
structure ScanResult where
  total_files : Nat
  total_directories : Nat
  total_size : Nat
  errors : List ScanError
  matching_files : List (List String)
deriving DecidableEq, Repr

instance {ε α : Type} [DecidableEq ε] [DecidableEq α] : DecidableEq (Except ε α) :=
  fun a b =>
    match a, b with
    | .error e, .error f =>
        if h : e = f then .isTrue (by rw [h]) else .isFalse (by simp [h])
    | .ok x, .ok y =>
        if h : x = y then .isTrue (by rw [h]) else .isFalse (by simp [h])
    | .error _, .ok _ => .isFalse (by simp)
    | .ok _, .error _ => .isFalse (by simp)

/-- `run_scan` (scanner.rs lines 230-299): validate the root, run the root
traversal, and assemble the aggregate result with the root itself added to
the directory count. -/
def run_scan (cfg : ScannerConfig) (root : RootMeta) : Except ScanError ScanResult :=
  match root with
  | .metaErr => .error (.IoError cfg.target_path)
  | .notDir => .error (.NotADirectory cfg.target_path)
  | .dir contents =>
      let pr := walk_directory_recursive cfg cfg.target_path contents
      .ok { total_files := pr.files_count,
            total_directories := pr.dirs_count + 1,
            total_size := pr.current_size,
            errors := pr.errors,
            matching_files := pr.matching_files }

/-- The part of an invocation's result accumulated by the invocation itself
(scanner.rs lines 62-181), excluding everything merged from awaited child
tasks at lines 204-220. -/
def ownResult (cfg : ScannerConfig) (path : List String) : ReadDirResult → WalkResult
  | .fail =>
      { files_count := 0, dirs_count := 0, current_size := 0,
        errors := [.IoError path], matching_files := [],
        events := sendEvents cfg [.ErrorEncountered] }
  | .ok es => (walkEntries cfg path es).1

/-- The child traversal an entry queues for spawning (scanner.rs lines 137
and 179): a subdirectory entry, or a followed symlink to a directory;
`none` for every entry that spawns nothing. -/
def spawned (cfg : ScannerConfig) (path : List String) :
    EntryResult → Option (List String × ReadDirResult)
  | .entry name (.dir c) =>
      if hiddenSkip cfg name then none else some (path ++ [name], c)
  | .entry name (.symlink (.dir c)) =>
      if hiddenSkip cfg name then none
      else if cfg.follow_symlinks then some (path ++ [name], c) else none
  | _ => none

/-- `Reaches cfg a b`: the traversal invocation on `b` is the invocation on
`a` itself, or a (transitively) spawned descendant task of it.  Each pair is
a directory path together with the modelled `read_dir` outcome there. -/
inductive Reaches (cfg : ScannerConfig) :
    List String × ReadDirResult → List String × ReadDirResult → Prop where
  | refl (a : List String × ReadDirResult) : Reaches cfg a a
  | step (a : List String × ReadDirResult) (p : List String) (es : List EntryResult)
      (e : EntryResult) (b : List String × ReadDirResult) :
      Reaches cfg a (p, .ok es) → e ∈ es → spawned cfg p e = some b →
      Reaches cfg a b

mutual
/-- No error is recorded anywhere while walking this directory: the listing
succeeds and every entry is error-free. -/
def errorFreeDir (cfg : ScannerConfig) : ReadDirResult → Bool
  | .fail => false
  | .ok es => errorFreeEntries cfg es

/-- All entries in the list are error-free. -/
def errorFreeEntries (cfg : ScannerConfig) : List EntryResult → Bool
  | [] => true
  | e :: rest => errorFreeEntry cfg e && errorFreeEntries cfg rest

/-- Processing this entry records no error: it is skipped before any
fallible call, or all its metadata calls succeed, and recursively so for
any subtree it queues. -/
def errorFreeEntry (cfg : ScannerConfig) : EntryResult → Bool
  | .fetchErr => false
  | .entry name kind =>
      if hiddenSkip cfg name then true
      else
        match kind with
        | .typeErr => false
        | .file (.ok _) => true
        | .file .err => false
        | .dir c => errorFreeDir cfg c
        | .symlink sm =>
            if cfg.follow_symlinks then
              match sm with
              | .file _ => true
              | .dir c => errorFreeDir cfg c
              | .err => false
              | .other => true
            else true
        | .other => true
end

mutual
/-- The number of filesystem entries visited below a directory, in the
sense of spec section 8: every entry yielded by the listing iteration
except those removed by the hidden-entry filter and those that are
symbolic links while symlink-following is off.  The directory itself is
not included (the root is added separately, as the spec adds it to
`total_directories`). -/
def visitedDir (cfg : ScannerConfig) : ReadDirResult → Nat
  | .fail => 0
  | .ok es => visitedEntries cfg es

/-- Sum of `visitedEntry` over a listing. -/
def visitedEntries (cfg : ScannerConfig) : List EntryResult → Nat
  | [] => 0
  | e :: rest => visitedEntry cfg e + visitedEntries cfg rest

/-- Whether one listing outcome is a visited entry (spec section 8), plus
the entries visited in any subtree descended into. -/
def visitedEntry (cfg : ScannerConfig) : EntryResult → Nat
  | .fetchErr => 0
  | .entry name kind =>
      if hiddenSkip cfg name then 0
      else
        match kind with
        | .typeErr => 1
        | .file _ => 1
        | .dir c => 1 + visitedDir cfg c
        | .symlink sm =>
            if cfg.follow_symlinks then
              match sm with
              | .dir c => 1 + visitedDir cfg c
              | _ => 1
            else 0
        | .other => 1
end

mutual
/-- The tree contains no entry that is visited but left uncounted: no
other-kind entries (devices, sockets, fifos), no type or metadata
failures, and, when symlinks are followed, no symlink whose target
resolution fails or is neither file nor directory. -/
def cleanDir (cfg : ScannerConfig) : ReadDirResult → Bool
  | .fail => true
  | .ok es => cleanEntries cfg es

/-- All entries in the list are clean. -/
def cleanEntries (cfg : ScannerConfig) : List EntryResult → Bool
  | [] => true
  | e :: rest => cleanEntry cfg e && cleanEntries cfg rest

/-- A clean entry is counted iff it is visited: filtered out entirely, or a
file/directory (possibly via followed symlink) whose metadata calls
succeed. -/
def cleanEntry (cfg : ScannerConfig) : EntryResult → Bool
  | .fetchErr => true
  | .entry name kind =>
      if hiddenSkip cfg name then true
      else
        match kind with
        | .typeErr => false
        | .file (.ok _) => true
        | .file .err => false
        | .dir c => cleanDir cfg c
        | .symlink sm =>
            if cfg.follow_symlinks then
              match sm with
              | .file _ => true
              | .dir c => cleanDir cfg c
              | .err => false
              | .other => false
            else true
        | .other => false
end

/-! ### The semaphore-bounded task system

`walk_directory_recursive` runs as a dynamically spawned set of tokio
tasks sharing one counting semaphore of capacity `max_concurrent_tasks`
(scanner.rs line 261).  Each task acquires one permit before its
`read_dir` (line 53), holds it through the listing/classification loop,
drops it at line 186, and only then spawns its child tasks (lines
188-202) and awaits them (lines 204-220).  The small-step system below
models exactly this lifecycle; a directory listing is "executing" while
its task is in the `listing` phase. -/

/-- The subtrees a single entry contributes to `sub_task_paths_to_spawn`. -/
def entrySubs (cfg : ScannerConfig) (e : EntryResult) : List ReadDirResult :=
  match e with
  | .entry name (.dir c) => if hiddenSkip cfg name then [] else [c]
  | .entry name (.symlink (.dir c)) =>
      if hiddenSkip cfg name then []
      else if cfg.follow_symlinks then [c] else []
  | _ => []

/-- All subtrees queued for spawning by one directory listing. -/
def listingSubs (cfg : ScannerConfig) : ReadDirResult → List ReadDirResult
  | .fail => []
  | .ok es => (es.map (entrySubs cfg)).flatten

/-- Lifecycle phase of one traversal task: spawned but waiting on
`semaphore.acquire()`; holding a permit while consuming the listing;
permit dropped but children not yet spawned; children spawned (recorded by
their task indices) and being awaited; finished. -/
inductive Phase where
  | pending (r : ReadDirResult) : Phase
  | listing (r : ReadDirResult) : Phase
  | classified (subs : List ReadDirResult) : Phase
  | awaiting (children : List Nat) : Phase
  | done : Phase

/-- Whether a task currently holds a semaphore permit, i.e. is between
`semaphore.acquire()` and `drop(permit)`: exactly the listing phase. -/
def Phase.isListing : Phase → Bool
  | .listing _ => true
  | _ => false

/-- Number of directory-listing operations executing simultaneously
(= semaphore permits in use). -/
def listingCount (s : List Phase) : Nat :=
  s.countP (fun p => p.isListing)

/-- One scheduler step of the task system.  `acquire` models
`semaphore.acquire()` succeeding, which tokio allows only while fewer than
`max_concurrent_tasks` permits are out; `release` models `drop(permit)`
after the listing pass; `spawn` models the `tokio::spawn` loop, appending
one pending task per queued subtree; `complete` models the final await
loop returning once all children are done. -/
inductive Step (cfg : ScannerConfig) : List Phase → List Phase → Prop where
  | acquire (s : List Phase) (i : Nat) (r : ReadDirResult) :
      s[i]? = some (.pending r) →
      listingCount s < cfg.max_concurrent_tasks →
      Step cfg s (s.set i (.listing r))
  | release (s : List Phase) (i : Nat) (r : ReadDirResult) :
      s[i]? = some (.listing r) →
      Step cfg s (s.set i (.classified (listingSubs cfg r)))
  | spawn (s : List Phase) (i : Nat) (subs : List ReadDirResult) :
      s[i]? = some (.classified subs) →
      Step cfg s
        ((s.set i (.awaiting ((List.range subs.length).map (· + s.length)))) ++
          subs.map Phase.pending)
  | complete (s : List Phase) (i : Nat) (ids : List Nat) :
      s[i]? = some (.awaiting ids) →
      (∀ j ∈ ids, s[j]? = some .done) →
      Step cfg s (s.set i .done)

/-- States reachable from the scan's initial state: the single root task,
spawned by `run_scan` (line 269), not yet holding a permit. -/
def ReachableState (cfg : ScannerConfig) (root : ReadDirResult) (s : List Phase) : Prop :=
  Relation.ReflTransGen (Step cfg) [Phase.pending root] s

/-- A concrete configuration for instantiating theorems: root path `root`,
limit 2, and the given flags (follow symlinks, include hidden, progress)
and pattern. -/
def mkConfig (follow hidden prog : Bool) (pat : Option (String → Bool)) : ScannerConfig :=
  { target_path := ["root"], max_concurrent_tasks := 2,
    follow_symlinks := follow, include_hidden := hidden,
    progress_updates := prog, verbose := false, file_pattern := pat }

/-- Default concrete configuration: hidden excluded, symlinks not
followed, progress on, no pattern. -/
def cfgPlain : ScannerConfig := mkConfig false false true none

/-- A directory whose listing yields exactly one entry of an uncounted
kind (e.g. a fifo). -/
def treeFifo : ReadDirResult := .ok [.entry "fifo0" .other]

/-- A small clean tree: two files and a subdirectory with one file. -/
def treeDemo : ReadDirResult :=
  .ok [.entry "a.txt" (.file (.ok 10)),
       .entry "sub" (.dir (.ok [.entry "b.txt" (.file (.ok 5))]))]

/-- A root whose only entry is a subdirectory whose listing fails. -/
def treeBad : ReadDirResult := .ok [.entry "sub" (.dir .fail)]

/-- Concrete configuration with a filename pattern. -/
def cfgPat : ScannerConfig :=
  mkConfig false false true (some (fun s => s == "report_2024.txt"))

/-- Concrete configuration that includes hidden entries. -/
def cfgHid : ScannerConfig := mkConfig false true true none

/-- Concrete configuration that follows symlinks. -/
def cfgFollow : ScannerConfig := mkConfig true false true none

/-- Concrete configuration that follows symlinks and has a pattern. -/
def cfgFollowPat : ScannerConfig :=
  mkConfig true false true (some (fun s => s == "link.txt"))

/-- Concrete configuration with concurrency limit 1. -/
def cfgOne : ScannerConfig := { cfgPlain with max_concurrent_tasks := 1 }

/-! ## Basic algebra of partial results and the traversal equations -/

theorem merge_empty_left (a : WalkResult) : WalkResult.empty.merge a = a := by
  cases a; simp [WalkResult.merge, WalkResult.empty]

theorem merge_empty_right (a : WalkResult) : a.merge WalkResult.empty = a := by
  cases a; simp [WalkResult.merge, WalkResult.empty]

theorem merge_assoc (a b c : WalkResult) :
    (a.merge b).merge c = a.merge (b.merge c) := by
  simp [WalkResult.merge, Nat.add_assoc]

theorem walk_fail_eq (cfg : ScannerConfig) (path : List String) :
    walk_directory_recursive cfg path .fail =
      { files_count := 0, dirs_count := 0, current_size := 0,
        errors := [.IoError path], matching_files := [],
        events := sendEvents cfg [.ErrorEncountered] } := rfl

theorem walk_ok_eq (cfg : ScannerConfig) (path : List String) (es : List EntryResult) :
    walk_directory_recursive cfg path (.ok es) =
      (walkEntries cfg path es).1.merge (walkEntries cfg path es).2 := rfl

theorem walkEntries_nil_eq (cfg : ScannerConfig) (path : List String) :
    walkEntries cfg path [] = (WalkResult.empty, WalkResult.empty) := rfl

theorem walkEntries_cons_eq (cfg : ScannerConfig) (path : List String)
    (e : EntryResult) (rest : List EntryResult) :
    walkEntries cfg path (e :: rest) =
      ((processEntry cfg path e).1.merge (walkEntries cfg path rest).1,
       (processEntry cfg path e).2.merge (walkEntries cfg path rest).2) := rfl

theorem walkEntries_append (cfg : ScannerConfig) (path : List String)
    (l1 l2 : List EntryResult) :
    walkEntries cfg path (l1 ++ l2) =
      ((walkEntries cfg path l1).1.merge (walkEntries cfg path l2).1,
       (walkEntries cfg path l1).2.merge (walkEntries cfg path l2).2) := by
  induction l1 with
  | nil => simp [walkEntries_nil_eq, merge_empty_left]
  | cons e rest ih =>
      simp only [List.cons_append, walkEntries_cons_eq, ih, merge_assoc]

theorem walk_insert_eq (cfg : ScannerConfig) (path : List String)
    (l1 l2 : List EntryResult) (e : EntryResult) :
    walk_directory_recursive cfg path (.ok (l1 ++ e :: l2)) =
      ((walkEntries cfg path l1).1.merge
        ((processEntry cfg path e).1.merge (walkEntries cfg path l2).1)).merge
      ((walkEntries cfg path l1).2.merge
        ((processEntry cfg path e).2.merge (walkEntries cfg path l2).2)) := by
  simp only [walk_ok_eq, walkEntries_append, walkEntries_cons_eq]

/-! ## Per-entry computation lemmas -/

theorem processEntry_fetchErr (cfg : ScannerConfig) (path : List String) :
    processEntry cfg path .fetchErr =
      ({ WalkResult.empty with
          errors := [.IoError path],
          events := sendEvents cfg [.ErrorEncountered] },
        WalkResult.empty) := rfl

theorem processEntry_hidden (cfg : ScannerConfig) (path : List String)
    (name : String) (kind : EntryKind) (h : hiddenSkip cfg name = true) :
    processEntry cfg path (.entry name kind) = (WalkResult.empty, WalkResult.empty) := by
  rw [processEntry.eq_def]; simp [h]

theorem processEntry_typeErr (cfg : ScannerConfig) (path : List String)
    (name : String) (h : hiddenSkip cfg name = false) :
    processEntry cfg path (.entry name .typeErr) =
      ({ WalkResult.empty with
          errors := [.IoError (path ++ [name])],
          events := sendEvents cfg [.ErrorEncountered] },
        WalkResult.empty) := by
  rw [processEntry.eq_def]; simp [h]

theorem processEntry_file_ok (cfg : ScannerConfig) (path : List String)
    (name : String) (sz : Nat) (h : hiddenSkip cfg name = false) :
    processEntry cfg path (.entry name (.file (.ok sz))) =
      ({ WalkResult.empty with
          files_count := 1, current_size := sz,
          matching_files := matchList cfg name (path ++ [name]),
          events := sendEvents cfg [.NewItemFound, .BytesProcessed sz] },
        WalkResult.empty) := by
  rw [processEntry.eq_def]; simp [h]

theorem processEntry_file_err (cfg : ScannerConfig) (path : List String)
    (name : String) (h : hiddenSkip cfg name = false) :
    processEntry cfg path (.entry name (.file .err)) =
      ({ WalkResult.empty with
          errors := [.MetadataError (path ++ [name])],
          events := sendEvents cfg [.ErrorEncountered] },
        WalkResult.empty) := by
  rw [processEntry.eq_def]; simp [h]

theorem processEntry_dir (cfg : ScannerConfig) (path : List String)
    (name : String) (c : ReadDirResult) (h : hiddenSkip cfg name = false) :
    processEntry cfg path (.entry name (.dir c)) =
      ({ WalkResult.empty with
          dirs_count := 1, events := sendEvents cfg [.NewItemFound] },
        walk_directory_recursive cfg (path ++ [name]) c) := by
  rw [processEntry.eq_def]; simp [h]

theorem processEntry_other (cfg : ScannerConfig) (path : List String)
    (name : String) :
    processEntry cfg path (.entry name .other) = (WalkResult.empty, WalkResult.empty) := by
  by_cases h : hiddenSkip cfg name = true
  · rw [processEntry.eq_def]; simp [h]
  · rw [processEntry.eq_def]; simp [h]

theorem processEntry_symlink_nofollow (cfg : ScannerConfig) (path : List String)
    (name : String) (sm : SymMeta) (hf : cfg.follow_symlinks = false) :
    processEntry cfg path (.entry name (.symlink sm)) =
      (WalkResult.empty, WalkResult.empty) := by
  by_cases h : hiddenSkip cfg name = true
  · rw [processEntry.eq_def]; simp [h]
  · rw [processEntry.eq_def]; simp [h, hf]

theorem processEntry_symlink_file (cfg : ScannerConfig) (path : List String)
    (name : String) (sz : Nat) (hf : cfg.follow_symlinks = true)
    (h : hiddenSkip cfg name = false) :
    processEntry cfg path (.entry name (.symlink (.file sz))) =
      ({ WalkResult.empty with
          files_count := 1, current_size := sz,
          events := sendEvents cfg [.NewItemFound, .BytesProcessed sz] },
        WalkResult.empty) := by
  rw [processEntry.eq_def]; simp [h, hf]

theorem processEntry_symlink_dir (cfg : ScannerConfig) (path : List String)
    (name : String) (c : ReadDirResult) (hf : cfg.follow_symlinks = true)
    (h : hiddenSkip cfg name = false) :
    processEntry cfg path (.entry name (.symlink (.dir c))) =
      ({ WalkResult.empty with
          dirs_count := 1, events := sendEvents cfg [.NewItemFound] },
        walk_directory_recursive cfg (path ++ [name]) c) := by
  rw [processEntry.eq_def]; simp [h, hf]

theorem processEntry_symlink_err (cfg : ScannerConfig) (path : List String)
    (name : String) (hf : cfg.follow_symlinks = true)
    (h : hiddenSkip cfg name = false) :
    processEntry cfg path (.entry name (.symlink .err)) =
      ({ WalkResult.empty with
          errors := [.MetadataError (path ++ [name])],
          events := sendEvents cfg [.ErrorEncountered] },
        WalkResult.empty) := by
  rw [processEntry.eq_def]; simp [h, hf]

theorem processEntry_symlink_other (cfg : ScannerConfig) (path : List String)
    (name : String) (hf : cfg.follow_symlinks = true)
    (h : hiddenSkip cfg name = false) :
    processEntry cfg path (.entry name (.symlink .other)) =
      (WalkResult.empty, WalkResult.empty) := by
  rw [processEntry.eq_def]; simp [h, hf]

/-! ## Error-free subtrees record no errors -/

mutual
theorem errorFree_walk (cfg : ScannerConfig) :
    ∀ (path : List String) (t : ReadDirResult), errorFreeDir cfg t = true →
      (walk_directory_recursive cfg path t).errors = []
  | _, .fail, h => by rw [errorFreeDir.eq_def] at h; exact absurd h (by simp)
  | path, .ok es, h => by
      rw [errorFreeDir.eq_def] at h
      have h2 := errorFree_walkEntries cfg path es h
      rw [walk_ok_eq]
      simp [WalkResult.merge, h2.1, h2.2]

theorem errorFree_walkEntries (cfg : ScannerConfig) :
    ∀ (path : List String) (es : List EntryResult), errorFreeEntries cfg es = true →
      (walkEntries cfg path es).1.errors = [] ∧ (walkEntries cfg path es).2.errors = []
  | _, [], _ => by simp [walkEntries_nil_eq, WalkResult.empty]
  | path, e :: rest, h => by
      rw [errorFreeEntries.eq_def] at h
      simp only [Bool.and_eq_true] at h
      have h1 := errorFree_processEntry cfg path e h.1
      have h2 := errorFree_walkEntries cfg path rest h.2
      simp [walkEntries_cons_eq, WalkResult.merge, h1.1, h1.2, h2.1, h2.2]

theorem errorFree_processEntry (cfg : ScannerConfig) :
    ∀ (path : List String) (e : EntryResult), errorFreeEntry cfg e = true →
      (processEntry cfg path e).1.errors = [] ∧ (processEntry cfg path e).2.errors = []
  | _, .fetchErr, h => by rw [errorFreeEntry.eq_def] at h; exact absurd h (by simp)
  | path, .entry name kind, h => by
      by_cases hh : hiddenSkip cfg name = true
      · simp [processEntry_hidden cfg path name kind hh, WalkResult.empty]
      · replace hh : hiddenSkip cfg name = false := by
          revert hh; cases hiddenSkip cfg name <;> simp
        rw [errorFreeEntry.eq_def] at h
        cases kind with
        | typeErr => simp [hh] at h
        | file m =>
            cases m with
            | ok sz =>
                simp [processEntry_file_ok cfg path name sz hh, WalkResult.empty]
            | err => simp [hh] at h
        | dir c =>
            simp only [hh, Bool.false_eq_true, if_false] at h
            have hc := errorFree_walk cfg (path ++ [name]) c h
            simp [processEntry_dir cfg path name c hh, WalkResult.empty, hc]
        | symlink sm =>
            by_cases hf : cfg.follow_symlinks = true
            · simp only [hh, hf, Bool.false_eq_true, if_false, if_true] at h
              cases sm with
              | err => simp at h
              | file sz =>
                  simp [processEntry_symlink_file cfg path name sz hf hh, WalkResult.empty]
              | dir c =>
                  simp only [] at h
                  have hc := errorFree_walk cfg (path ++ [name]) c h
                  simp [processEntry_symlink_dir cfg path name c hf hh, WalkResult.empty, hc]
              | other =>
                  simp [processEntry_symlink_other cfg path name hf hh, WalkResult.empty]
            · replace hf : cfg.follow_symlinks = false := by
                revert hf; cases cfg.follow_symlinks <;> simp
              simp [processEntry_symlink_nofollow cfg path name sm hf, WalkResult.empty]
        | other => simp [processEntry_other cfg path name, WalkResult.empty]
end

/-! ## Every matched path ends in a name accepted by the pattern -/

mutual
theorem matching_names_walk (cfg : ScannerConfig) (pat : String → Bool)
    (hpat : cfg.file_pattern = some pat) :
    ∀ (path : List String) (t : ReadDirResult) (q : List String),
      q ∈ (walk_directory_recursive cfg path t).matching_files →
      ∃ pre n, q = pre ++ [n] ∧ pat n = true
  | _, .fail, q, hq => by rw [walk_fail_eq] at hq; simp at hq
  | path, .ok es, q, hq => by
      rw [walk_ok_eq] at hq
      rcases List.mem_append.mp hq with h | h
      · exact matching_names_entries cfg pat hpat path es q (Or.inl h)
      · exact matching_names_entries cfg pat hpat path es q (Or.inr h)

theorem matching_names_entries (cfg : ScannerConfig) (pat : String → Bool)
    (hpat : cfg.file_pattern = some pat) :
    ∀ (path : List String) (es : List EntryResult) (q : List String),
      (q ∈ (walkEntries cfg path es).1.matching_files ∨
        q ∈ (walkEntries cfg path es).2.matching_files) →
      ∃ pre n, q = pre ++ [n] ∧ pat n = true
  | _, [], q, hq => by
      rw [walkEntries_nil_eq] at hq
      simp [WalkResult.empty] at hq
  | path, e :: rest, q, hq => by
      rw [walkEntries_cons_eq] at hq
      have hq' : (q ∈ (processEntry cfg path e).1.matching_files ∨
          q ∈ (processEntry cfg path e).2.matching_files) ∨
          (q ∈ (walkEntries cfg path rest).1.matching_files ∨
            q ∈ (walkEntries cfg path rest).2.matching_files) := by
        rcases hq with h | h <;>
          rcases List.mem_append.mp h with h' | h' <;> tauto
      rcases hq' with h | h
      · exact matching_names_entry cfg pat hpat path e q h
      · exact matching_names_entries cfg pat hpat path rest q h

theorem matching_names_entry (cfg : ScannerConfig) (pat : String → Bool)
    (hpat : cfg.file_pattern = some pat) :
    ∀ (path : List String) (e : EntryResult) (q : List String),
      (q ∈ (processEntry cfg path e).1.matching_files ∨
        q ∈ (processEntry cfg path e).2.matching_files) →
      ∃ pre n, q = pre ++ [n] ∧ pat n = true
  | path, .fetchErr, q, hq => by
      rw [processEntry_fetchErr] at hq
      simp [WalkResult.empty] at hq
  | path, .entry name kind, q, hq => by
      by_cases hh : hiddenSkip cfg name = true
      · rw [processEntry_hidden cfg path name kind hh] at hq
        simp [WalkResult.empty] at hq
      · replace hh : hiddenSkip cfg name = false := by
          revert hh; cases hiddenSkip cfg name <;> simp
        cases kind with
        | typeErr =>
            rw [processEntry_typeErr cfg path name hh] at hq
            simp [WalkResult.empty] at hq
        | file m =>
            cases m with
            | ok sz =>
                rw [processEntry_file_ok cfg path name sz hh] at hq
                simp [WalkResult.empty, matchList, hpat] at hq
                by_cases hp : pat name = true
                · rw [hp] at hq
                  simp at hq
                  exact ⟨path, name, hq, hp⟩
                · replace hp : pat name = false := by
                    revert hp; cases pat name <;> simp
                  rw [hp] at hq
                  simp at hq
            | err =>
                rw [processEntry_file_err cfg path name hh] at hq
                simp [WalkResult.empty] at hq
        | dir c =>
            rw [processEntry_dir cfg path name c hh] at hq
            rcases hq with h | h
            · simp [WalkResult.empty] at h
            · exact matching_names_walk cfg pat hpat (path ++ [name]) c q h
        | symlink sm =>
            by_cases hf : cfg.follow_symlinks = true
            · cases sm with
              | err =>
                  rw [processEntry_symlink_err cfg path name hf hh] at hq
                  simp [WalkResult.empty] at hq
              | file sz =>
                  rw [processEntry_symlink_file cfg path name sz hf hh] at hq
                  simp [WalkResult.empty] at hq
              | dir c =>
                  rw [processEntry_symlink_dir cfg path name c hf hh] at hq
                  rcases hq with h | h
                  · simp [WalkResult.empty] at h
                  · exact matching_names_walk cfg pat hpat (path ++ [name]) c q h
              | other =>
                  rw [processEntry_symlink_other cfg path name hf hh] at hq
                  simp [WalkResult.empty] at hq
            · replace hf : cfg.follow_symlinks = false := by
                revert hf; cases cfg.follow_symlinks <;> simp
              rw [processEntry_symlink_nofollow cfg path name sm hf] at hq
              simp [WalkResult.empty] at hq
        | other =>
            rw [processEntry_other cfg path name] at hq
            simp [WalkResult.empty] at hq
end

/-! ## Clean trees: the counted entries are exactly the visited ones -/

mutual
theorem clean_visited_walk (cfg : ScannerConfig) :
    ∀ (path : List String) (t : ReadDirResult), cleanDir cfg t = true →
      (walk_directory_recursive cfg path t).files_count +
        (walk_directory_recursive cfg path t).dirs_count = visitedDir cfg t
  | path, .fail, _ => by
      rw [walk_fail_eq, visitedDir.eq_def]
      rfl
  | path, .ok es, h => by
      rw [cleanDir.eq_def] at h
      have he := clean_visited_entries cfg path es h
      rw [walk_ok_eq, visitedDir.eq_def]
      simp only [WalkResult.merge]
      omega

theorem clean_visited_entries (cfg : ScannerConfig) :
    ∀ (path : List String) (es : List EntryResult), cleanEntries cfg es = true →
      (walkEntries cfg path es).1.files_count + (walkEntries cfg path es).1.dirs_count +
        (walkEntries cfg path es).2.files_count + (walkEntries cfg path es).2.dirs_count =
        visitedEntries cfg es
  | _, [], _ => by rw [walkEntries_nil_eq, visitedEntries.eq_def]; rfl
  | path, e :: rest, h => by
      rw [cleanEntries.eq_def] at h
      simp only [Bool.and_eq_true] at h
      have h1 := clean_visited_entry cfg path e h.1
      have h2 := clean_visited_entries cfg path rest h.2
      rw [walkEntries_cons_eq, visitedEntries.eq_def]
      simp only [WalkResult.merge]
      omega

theorem clean_visited_entry (cfg : ScannerConfig) :
    ∀ (path : List String) (e : EntryResult), cleanEntry cfg e = true →
      (processEntry cfg path e).1.files_count + (processEntry cfg path e).1.dirs_count +
        (processEntry cfg path e).2.files_count + (processEntry cfg path e).2.dirs_count =
        visitedEntry cfg e
  | path, .fetchErr, _ => by
      rw [processEntry_fetchErr, visitedEntry.eq_def]; rfl
  | path, .entry name kind, h => by
      rw [visitedEntry.eq_def]
      by_cases hh : hiddenSkip cfg name = true
      · rw [processEntry_hidden cfg path name kind hh]
        simp [hh, WalkResult.empty]
      · replace hh : hiddenSkip cfg name = false := by
          revert hh; cases hiddenSkip cfg name <;> simp
        rw [cleanEntry.eq_def] at h
        cases kind with
        | typeErr => simp [hh] at h
        | file m =>
            cases m with
            | ok sz =>
                rw [processEntry_file_ok cfg path name sz hh]
                simp [hh, WalkResult.empty]
            | err => simp [hh] at h
        | dir c =>
            simp only [hh, Bool.false_eq_true, if_false] at h
            have hc := clean_visited_walk cfg (path ++ [name]) c h
            rw [processEntry_dir cfg path name c hh]
            simp only [hh, Bool.false_eq_true, if_false, WalkResult.empty]
            omega
        | symlink sm =>
            by_cases hf : cfg.follow_symlinks = true
            · simp only [hh, hf, Bool.false_eq_true, if_false, if_true] at h
              cases sm with
              | err => simp at h
              | file sz =>
                  rw [processEntry_symlink_file cfg path name sz hf hh]
                  simp [hh, hf, WalkResult.empty]
              | dir c =>
                  simp only [] at h
                  have hc := clean_visited_walk cfg (path ++ [name]) c h
                  rw [processEntry_symlink_dir cfg path name c hf hh]
                  simp only [hh, hf, Bool.false_eq_true, if_false, if_true, WalkResult.empty]
                  omega
              | other => simp at h
            · replace hf : cfg.follow_symlinks = false := by
                revert hf; cases cfg.follow_symlinks <;> simp
              rw [processEntry_symlink_nofollow cfg path name sm hf]
              simp [hh, hf, WalkResult.empty]
        | other => simp [hh] at h
end

/-! ## Spawned children and error containment -/

theorem spawned_kids (cfg : ScannerConfig) (p : List String) (e : EntryResult)
    (q : List String) (u : ReadDirResult) (hs : spawned cfg p e = some (q, u)) :
    (processEntry cfg p e).2 = walk_directory_recursive cfg q u := by
  cases e with
  | fetchErr => simp [spawned] at hs
  | entry name kind =>
      cases kind with
      | typeErr => simp [spawned] at hs
      | file m => simp [spawned] at hs
      | other => simp [spawned] at hs
      | dir c =>
          by_cases hh : hiddenSkip cfg name = true
          · simp [spawned, hh] at hs
          · replace hh : hiddenSkip cfg name = false := by
              revert hh; cases hiddenSkip cfg name <;> simp
            simp [spawned, hh] at hs
            rw [processEntry_dir cfg p name c hh, hs.1, hs.2]
      | symlink sm =>
          cases sm with
          | err => simp [spawned] at hs
          | file sz => simp [spawned] at hs
          | other => simp [spawned] at hs
          | dir c =>
              by_cases hh : hiddenSkip cfg name = true
              · simp [spawned, hh] at hs
              · replace hh : hiddenSkip cfg name = false := by
                  revert hh; cases hiddenSkip cfg name <;> simp
                by_cases hf : cfg.follow_symlinks = true
                · simp [spawned, hh, hf] at hs
                  rw [processEntry_symlink_dir cfg p name c hf hh, hs.1, hs.2]
                · replace hf : cfg.follow_symlinks = false := by
                    revert hf; cases cfg.follow_symlinks <;> simp
                  simp [spawned, hh, hf] at hs

theorem kids_errors_subset (cfg : ScannerConfig) (p : List String)
    (es : List EntryResult) (e : EntryResult) (he : e ∈ es) :
    (processEntry cfg p e).2.errors ⊆ (walkEntries cfg p es).2.errors := by
  induction es with
  | nil => cases he
  | cons a rest ih =>
      rw [walkEntries_cons_eq]
      rcases List.mem_cons.mp he with h | h
      · subst h
        simp only [WalkResult.merge]
        exact List.subset_append_left _ _
      · simp only [WalkResult.merge]
        exact (ih h).trans (List.subset_append_right _ _)

theorem own_errors_subset (cfg : ScannerConfig) (p : List String) (t : ReadDirResult) :
    (ownResult cfg p t).errors ⊆ (walk_directory_recursive cfg p t).errors := by
  cases t with
  | fail => exact fun x hx => hx
  | ok es =>
      rw [walk_ok_eq]
      simp only [ownResult, WalkResult.merge]
      exact List.subset_append_left _ _

theorem reaches_errors_subset (cfg : ScannerConfig)
    (a b : List String × ReadDirResult) (h : Reaches cfg a b) :
    (walk_directory_recursive cfg b.1 b.2).errors ⊆
      (walk_directory_recursive cfg a.1 a.2).errors := by
  induction h with
  | refl => exact fun x hx => hx
  | step p es e b hr hm hs ih =>
      intro x hx
      apply ih
      obtain ⟨q, u⟩ := b
      have hk := spawned_kids cfg p e q u hs
      have hx' : x ∈ (processEntry cfg p e).2.errors := by rw [hk]; exact hx
      have hx2 : x ∈ (walkEntries cfg p es).2.errors :=
        kids_errors_subset cfg p es e hm hx'
      rw [walk_ok_eq]
      simp only [WalkResult.merge, List.mem_append]
      exact Or.inr hx2

/-! ## The semaphore bound -/

theorem countP_set_eq {α : Type} (f : α → Bool) :
    ∀ (l : List α) (i : Nat) (a b : α), l[i]? = some b →
      (l.set i a).countP f + (if f b then 1 else 0) =
        l.countP f + (if f a then 1 else 0)
  | [], i, a, b, h => by simp at h
  | c :: rest, 0, a, b, h => by
      simp only [List.getElem?_cons_zero, Option.some.injEq] at h
      subst h
      simp only [List.set_cons_zero, List.countP_cons]
      omega
  | c :: rest, i + 1, a, b, h => by
      simp only [List.getElem?_cons_succ] at h
      have := countP_set_eq f rest i a b h
      simp only [List.set_cons_succ, List.countP_cons]
      omega

theorem countP_pending_map (subs : List ReadDirResult) :
    (subs.map Phase.pending).countP (fun p => p.isListing) = 0 := by
  induction subs with
  | nil => rfl
  | cons a rest ih => simp [List.countP_cons, ih, Phase.isListing]

theorem isListing_pending (r : ReadDirResult) : (Phase.pending r).isListing = false := rfl

theorem isListing_listing (r : ReadDirResult) : (Phase.listing r).isListing = true := rfl

theorem isListing_classified (subs : List ReadDirResult) :
    (Phase.classified subs).isListing = false := rfl

theorem isListing_awaiting (ids : List Nat) : (Phase.awaiting ids).isListing = false := rfl

theorem isListing_done : Phase.done.isListing = false := rfl

theorem step_preserves_bound (cfg : ScannerConfig) (s s' : List Phase)
    (h : Step cfg s s') (hb : listingCount s ≤ cfg.max_concurrent_tasks) :
    listingCount s' ≤ cfg.max_concurrent_tasks := by
  cases h with
  | acquire i r hi hc =>
      have := countP_set_eq (fun p => p.isListing) s i (.listing r) (.pending r) hi
      simp [isListing_pending, isListing_listing] at this
      unfold listingCount at *
      omega
  | release i r hi =>
      have := countP_set_eq (fun p => p.isListing) s i
        (.classified (listingSubs cfg r)) (.listing r) hi
      simp [isListing_classified, isListing_listing] at this
      unfold listingCount at *
      omega
  | spawn i subs hi =>
      have h1 := countP_set_eq (fun p => p.isListing) s i
        (.awaiting ((List.range subs.length).map (· + s.length))) (.classified subs) hi
      simp [isListing_awaiting, isListing_classified] at h1
      unfold listingCount at *
      rw [List.countP_append, countP_pending_map]
      omega
  | complete i ids hi hdone =>
      have := countP_set_eq (fun p => p.isListing) s i .done (.awaiting ids) hi
      simp [isListing_done, isListing_awaiting] at this
      unfold listingCount at *
      omega

/-! ## Small helpers for concrete names and bounds -/

theorem getLast_append_singleton {α : Type} (l : List α) (a : α) :
    (l ++ [a]).getLast? = some a := by
  induction l with
  | nil => rfl
  | cons b rest ih =>
      rw [List.cons_append, List.getLast?_cons, ih]
      cases rest <;> simp

theorem reachable_listing_bound (cfg : ScannerConfig) (root : ReadDirResult)
    (s : List Phase) (h : ReachableState cfg root s) :
    listingCount s ≤ cfg.max_concurrent_tasks := by
  induction h with
  | refl =>
      simp [listingCount, List.countP_cons, List.countP_nil, isListing_pending]
  | tail hab hbc ih => exact step_preserves_bound cfg _ _ hbc ih

/-! ## The claims -/

/-- C1 counterexample: for the claim as stated, a tree whose root contains a
single fifo entry refutes `total_files + total_directories` = number of
entries visited after hidden/symlink filtering (root included): the fifo is
visited but counted in neither category. -/
theorem claim_C1_counterexample :
    ∃ r, run_scan cfgPlain (.dir treeFifo) = Except.ok r ∧
      r.total_files + r.total_directories ≠ 1 + visitedDir cfgPlain treeFifo := by
  refine ⟨_, rfl, ?_⟩
  decide

/-- C1 (amended): for every directory tree with no other-kind entries and no
type/metadata failures among the entries actually reached, the aggregate
result satisfies: `total_files + total_directories` equals the number of
entries visited after hidden/symlink filtering plus the root;
`total_directories` is the root traversal's directory count plus one; and
`total_directories ≥ 1`. -/
theorem claim_C1_amended (cfg : ScannerConfig) (t : ReadDirResult) (r : ScanResult)
    (hclean : cleanDir cfg t = true)
    (hrun : run_scan cfg (.dir t) = Except.ok r) :
    r.total_files + r.total_directories = 1 + visitedDir cfg t ∧
    r.total_directories =
      (walk_directory_recursive cfg cfg.target_path t).dirs_count + 1 ∧
    1 ≤ r.total_directories := by
  have hv := clean_visited_walk cfg cfg.target_path t hclean
  simp only [run_scan, Except.ok.injEq] at hrun
  subst hrun
  refine ⟨?_, rfl, ?_⟩
  · show (walk_directory_recursive cfg cfg.target_path t).files_count +
      ((walk_directory_recursive cfg cfg.target_path t).dirs_count + 1) =
      1 + visitedDir cfg t
    omega
  · show 1 ≤ (walk_directory_recursive cfg cfg.target_path t).dirs_count + 1
    omega

/-- C1 witness: the amended statement evaluated on a concrete clean tree
(two files of 10 and 5 bytes, one subdirectory). -/
theorem claim_C1_witness :
    2 + 2 = 1 + visitedDir cfgPlain treeDemo ∧
    2 = (walk_directory_recursive cfgPlain cfgPlain.target_path treeDemo).dirs_count + 1 ∧
    (1 : Nat) ≤ 2 :=
  claim_C1_amended cfgPlain treeDemo
    { total_files := 2, total_directories := 2, total_size := 15,
      errors := [], matching_files := [] } (by decide) (by decide)

/-- C2: whenever the root passes the initial directory check, `run_scan`
returns `Ok`, its error list is the root traversal's error list verbatim,
and the errors recorded locally by any traversal invocation reachable
through spawned child tasks all appear in the final error list. -/
theorem claim_C2 (cfg : ScannerConfig) (t : ReadDirResult)
    (b : List String × ReadDirResult)
    (hb : Reaches cfg (cfg.target_path, t) b) :
    ∃ r, run_scan cfg (.dir t) = Except.ok r ∧
      r.errors = (walk_directory_recursive cfg cfg.target_path t).errors ∧
      (ownResult cfg b.1 b.2).errors ⊆ r.errors := by
  refine ⟨_, rfl, rfl, ?_⟩
  exact (own_errors_subset cfg b.1 b.2).trans
    (reaches_errors_subset cfg (cfg.target_path, t) b hb)

/-- C2 witness: a scan whose only error arises inside a spawned child task
(an unreadable subdirectory); the child's error reaches the final list. -/
theorem claim_C2_witness :
    ∃ r, run_scan cfgPlain (.dir treeBad) = Except.ok r ∧
      r.errors = (walk_directory_recursive cfgPlain cfgPlain.target_path treeBad).errors ∧
      (ownResult cfgPlain ["root", "sub"] .fail).errors ⊆ r.errors :=
  claim_C2 cfgPlain treeBad (["root", "sub"], .fail)
    (Reaches.step (cfgPlain.target_path, treeBad) ["root"]
      [.entry "sub" (.dir .fail)] (.entry "sub" (.dir .fail))
      (["root", "sub"], .fail) (Reaches.refl _) (List.Mem.head _) rfl)

/-- C3: a failed directory listing records exactly one IoError tagged with
that directory's path, sends one ErrorEncountered event, and returns a
partial result that is empty except for that error; a scan whose root
contains otherwise error-free entries plus one unlistable subdirectory
still completes with exactly that one error and all other counts intact. -/
theorem claim_C3 (cfg : ScannerConfig) (name : String) (es : List EntryResult)
    (hp : cfg.progress_updates = true) (hh : hiddenSkip cfg name = false)
    (hef : errorFreeEntries cfg es = true) :
    (∀ p : List String, walk_directory_recursive cfg p .fail =
      { files_count := 0, dirs_count := 0, current_size := 0,
        errors := [.IoError p], matching_files := [],
        events := [.ErrorEncountered] }) ∧
    ∃ r, run_scan cfg (.dir (.ok (es ++ .entry name (.dir .fail) :: []))) = Except.ok r ∧
      r.errors = [.IoError (cfg.target_path ++ [name])] ∧
      r.errors.length = 1 ∧
      r.total_files = (walk_directory_recursive cfg cfg.target_path (.ok es)).files_count ∧
      r.total_directories =
        (walk_directory_recursive cfg cfg.target_path (.ok es)).dirs_count + 2 ∧
      r.total_size = (walk_directory_recursive cfg cfg.target_path (.ok es)).current_size ∧
      r.matching_files =
        (walk_directory_recursive cfg cfg.target_path (.ok es)).matching_files := by
  have hef2 := errorFree_walkEntries cfg cfg.target_path es hef
  have hw := walk_insert_eq cfg cfg.target_path es [] (.entry name (.dir .fail))
  rw [processEntry_dir cfg cfg.target_path name .fail hh, walk_fail_eq,
    walkEntries_nil_eq] at hw
  constructor
  · intro p
    rw [walk_fail_eq]
    simp [sendEvents, hp]
  · refine ⟨_, rfl, ?_, ?_, ?_, ?_, ?_, ?_⟩
    · show (walk_directory_recursive cfg cfg.target_path
          (.ok (es ++ .entry name (.dir .fail) :: []))).errors = _
      rw [hw]
      simp [WalkResult.merge, WalkResult.empty, hef2.1, hef2.2]
    · show ((walk_directory_recursive cfg cfg.target_path
          (.ok (es ++ .entry name (.dir .fail) :: []))).errors).length = 1
      rw [hw]
      simp [WalkResult.merge, WalkResult.empty, hef2.1, hef2.2]
    · show (walk_directory_recursive cfg cfg.target_path
          (.ok (es ++ .entry name (.dir .fail) :: []))).files_count = _
      rw [hw, walk_ok_eq]
      simp [WalkResult.merge, WalkResult.empty]
    · show (walk_directory_recursive cfg cfg.target_path
          (.ok (es ++ .entry name (.dir .fail) :: []))).dirs_count + 1 = _
      rw [hw, walk_ok_eq]
      simp [WalkResult.merge, WalkResult.empty]
      omega
    · show (walk_directory_recursive cfg cfg.target_path
          (.ok (es ++ .entry name (.dir .fail) :: []))).current_size = _
      rw [hw, walk_ok_eq]
      simp [WalkResult.merge, WalkResult.empty]
    · show (walk_directory_recursive cfg cfg.target_path
          (.ok (es ++ .entry name (.dir .fail) :: []))).matching_files = _
      rw [hw, walk_ok_eq]
      simp [WalkResult.merge, WalkResult.empty]

/-- C3 witness: one readable file beside an unlistable subdirectory. -/
theorem claim_C3_witness :
    (∀ p : List String, walk_directory_recursive cfgPlain p .fail =
      { files_count := 0, dirs_count := 0, current_size := 0,
        errors := [.IoError p], matching_files := [],
        events := [.ErrorEncountered] }) ∧
    ∃ r, run_scan cfgPlain
        (.dir (.ok ([.entry "a.txt" (.file (.ok 10))] ++
          .entry "sub" (.dir .fail) :: []))) = Except.ok r ∧
      r.errors = [.IoError (cfgPlain.target_path ++ ["sub"])] ∧
      r.errors.length = 1 ∧
      r.total_files = (walk_directory_recursive cfgPlain cfgPlain.target_path
        (.ok [.entry "a.txt" (.file (.ok 10))])).files_count ∧
      r.total_directories = (walk_directory_recursive cfgPlain cfgPlain.target_path
        (.ok [.entry "a.txt" (.file (.ok 10))])).dirs_count + 2 ∧
      r.total_size = (walk_directory_recursive cfgPlain cfgPlain.target_path
        (.ok [.entry "a.txt" (.file (.ok 10))])).current_size ∧
      r.matching_files = (walk_directory_recursive cfgPlain cfgPlain.target_path
        (.ok [.entry "a.txt" (.file (.ok 10))])).matching_files :=
  claim_C3 cfgPlain "sub" [.entry "a.txt" (.file (.ok 10))] rfl (by decide) (by decide)

/-- C4: a file named `report_2024.txt` is in `matching_files` iff the
configured pattern accepts the name `report_2024.txt`; and every matched
path was matched on its file name alone — its last component satisfies the
pattern. -/
theorem claim_C4 (cfg : ScannerConfig) (pat : String → Bool)
    (l1 l2 : List EntryResult) (sz : Nat) (r : ScanResult)
    (hpat : cfg.file_pattern = some pat)
    (hrun : run_scan cfg
      (.dir (.ok (l1 ++ .entry "report_2024.txt" (.file (.ok sz)) :: l2))) =
        Except.ok r) :
    ((cfg.target_path ++ ["report_2024.txt"]) ∈ r.matching_files ↔
      pat "report_2024.txt" = true) ∧
    ∀ q ∈ r.matching_files, ∃ pre n, q = pre ++ [n] ∧ pat n = true := by
  have hh : hiddenSkip cfg "report_2024.txt" = false := by
    have hs : startsWithDot "report_2024.txt" = false := by decide
    simp [hiddenSkip, hs]
  simp only [run_scan, Except.ok.injEq] at hrun
  subst hrun
  have hmat : ∀ q ∈ (walk_directory_recursive cfg cfg.target_path
      (.ok (l1 ++ .entry "report_2024.txt" (.file (.ok sz)) :: l2))).matching_files,
      ∃ pre n, q = pre ++ [n] ∧ pat n = true :=
    fun q hq => matching_names_walk cfg pat hpat _ _ q hq
  refine ⟨⟨?_, ?_⟩, hmat⟩
  · intro hmem
    obtain ⟨pre, n, heq, hn⟩ := hmat _ hmem
    have h1 := getLast_append_singleton pre n
    rw [← heq] at h1
    have h2 := getLast_append_singleton cfg.target_path "report_2024.txt"
    have h3 : n = "report_2024.txt" := by
      have := (h1.symm.trans h2)
      exact (Option.some_inj.mp this)
    rwa [h3] at hn
  · intro hp
    show (cfg.target_path ++ ["report_2024.txt"]) ∈
      (walk_directory_recursive cfg cfg.target_path
        (.ok (l1 ++ .entry "report_2024.txt" (.file (.ok sz)) :: l2))).matching_files
    rw [walk_insert_eq cfg cfg.target_path l1 l2
      (.entry "report_2024.txt" (.file (.ok sz))),
      processEntry_file_ok cfg cfg.target_path "report_2024.txt" sz hh]
    simp [WalkResult.merge, WalkResult.empty, matchList, hpat, hp]

/-- C4 witness: a root containing exactly `report_2024.txt`, with a pattern
that accepts exactly that name. -/
theorem claim_C4_witness :
    ((cfgPat.target_path ++ ["report_2024.txt"]) ∈
        ([["root", "report_2024.txt"]] : List (List String)) ↔
      (fun s => s == "report_2024.txt") "report_2024.txt" = true) ∧
    ∀ q ∈ ([["root", "report_2024.txt"]] : List (List String)),
      ∃ pre n, q = pre ++ [n] ∧ (fun s => s == "report_2024.txt") n = true :=
  claim_C4 cfgPat (fun s => s == "report_2024.txt") [] [] 5
    { total_files := 1, total_directories := 1, total_size := 5,
      errors := [], matching_files := [["root", "report_2024.txt"]] }
    rfl (by decide)

/-- C5: with hidden-exclusion on, a directory entry named `.git`
contributes nothing to any count and is never descended into (the whole
partial result is as if the entry were absent); with hidden-exclusion off,
it is counted as one directory and its subtree's counts are fully
included. -/
theorem claim_C5 (cfg : ScannerConfig) (p : List String)
    (l1 l2 : List EntryResult) (c : ReadDirResult) :
    (cfg.include_hidden = false →
      walk_directory_recursive cfg p (.ok (l1 ++ .entry ".git" (.dir c) :: l2)) =
        walk_directory_recursive cfg p (.ok (l1 ++ l2))) ∧
    (cfg.include_hidden = true →
      (walk_directory_recursive cfg p (.ok (l1 ++ .entry ".git" (.dir c) :: l2))).files_count =
        (walk_directory_recursive cfg p (.ok (l1 ++ l2))).files_count +
          (walk_directory_recursive cfg (p ++ [".git"]) c).files_count ∧
      (walk_directory_recursive cfg p (.ok (l1 ++ .entry ".git" (.dir c) :: l2))).dirs_count =
        (walk_directory_recursive cfg p (.ok (l1 ++ l2))).dirs_count + 1 +
          (walk_directory_recursive cfg (p ++ [".git"]) c).dirs_count ∧
      (walk_directory_recursive cfg p (.ok (l1 ++ .entry ".git" (.dir c) :: l2))).current_size =
        (walk_directory_recursive cfg p (.ok (l1 ++ l2))).current_size +
          (walk_directory_recursive cfg (p ++ [".git"]) c).current_size) := by
  constructor
  · intro h
    have hh : hiddenSkip cfg ".git" = true := by
      simp [hiddenSkip, h]
      decide
    rw [walk_insert_eq, processEntry_hidden cfg p ".git" (.dir c) hh,
      walk_ok_eq, walkEntries_append]
    simp [merge_empty_left]
  · intro h
    have hh : hiddenSkip cfg ".git" = false := by simp [hiddenSkip, h]
    have hw := walk_insert_eq cfg p l1 l2 (.entry ".git" (.dir c))
    rw [processEntry_dir cfg p ".git" c hh] at hw
    refine ⟨?_, ?_, ?_⟩ <;>
      rw [hw, walk_ok_eq, walkEntries_append] <;>
      simp [WalkResult.merge, WalkResult.empty] <;>
      omega

/-- C5 witness: the two branches evaluated on a concrete listing, under the
hidden-excluding and hidden-including configurations respectively. -/
theorem claim_C5_witness :
    walk_directory_recursive cfgPlain ["root"]
        (.ok ([.entry "a.txt" (.file (.ok 10))] ++
          .entry ".git" (.dir (.ok [.entry "x" (.file (.ok 4))])) :: [])) =
      walk_directory_recursive cfgPlain ["root"]
        (.ok ([.entry "a.txt" (.file (.ok 10))] ++ [])) ∧
    (walk_directory_recursive cfgHid ["root"]
        (.ok ([.entry "a.txt" (.file (.ok 10))] ++
          .entry ".git" (.dir (.ok [.entry "x" (.file (.ok 4))])) :: []))).files_count =
      (walk_directory_recursive cfgHid ["root"]
        (.ok ([.entry "a.txt" (.file (.ok 10))] ++ []))).files_count +
        (walk_directory_recursive cfgHid (["root"] ++ [".git"])
          (.ok [.entry "x" (.file (.ok 4))])).files_count :=
  ⟨(claim_C5 cfgPlain ["root"] [.entry "a.txt" (.file (.ok 10))] []
      (.ok [.entry "x" (.file (.ok 4))])).1 rfl,
    ((claim_C5 cfgHid ["root"] [.entry "a.txt" (.file (.ok 10))] []
      (.ok [.entry "x" (.file (.ok 4))])).2 rfl).1⟩

/-- C6: with symlink-following off, a symlink entry contributes nothing at
all; with it on: a file target adds exactly one file and its byte size
once, a directory target adds one directory and queues the target for
recursive descent, and a metadata-resolution failure records one
MetadataError plus one ErrorEncountered event and is otherwise skipped. -/
theorem claim_C6 (cfg : ScannerConfig) (p : List String)
    (l1 l2 : List EntryResult) (name : String) (sm : SymMeta) (sz : Nat)
    (c : ReadDirResult) (hh : hiddenSkip cfg name = false)
    (hp : cfg.progress_updates = true) :
    (cfg.follow_symlinks = false →
      walk_directory_recursive cfg p (.ok (l1 ++ .entry name (.symlink sm) :: l2)) =
        walk_directory_recursive cfg p (.ok (l1 ++ l2))) ∧
    (cfg.follow_symlinks = true →
      ((walk_directory_recursive cfg p
          (.ok (l1 ++ .entry name (.symlink (.file sz)) :: l2))).files_count =
        (walk_directory_recursive cfg p (.ok (l1 ++ l2))).files_count + 1 ∧
       (walk_directory_recursive cfg p
          (.ok (l1 ++ .entry name (.symlink (.file sz)) :: l2))).current_size =
        (walk_directory_recursive cfg p (.ok (l1 ++ l2))).current_size + sz ∧
       (walk_directory_recursive cfg p
          (.ok (l1 ++ .entry name (.symlink (.file sz)) :: l2))).dirs_count =
        (walk_directory_recursive cfg p (.ok (l1 ++ l2))).dirs_count ∧
       processEntry cfg p (.entry name (.symlink (.file sz))) =
         ({ WalkResult.empty with
             files_count := 1, current_size := sz,
             events := [.NewItemFound, .BytesProcessed sz] }, WalkResult.empty)) ∧
      ((walk_directory_recursive cfg p
          (.ok (l1 ++ .entry name (.symlink (.dir c)) :: l2))).dirs_count =
        (walk_directory_recursive cfg p (.ok (l1 ++ l2))).dirs_count + 1 +
          (walk_directory_recursive cfg (p ++ [name]) c).dirs_count ∧
       (walk_directory_recursive cfg p
          (.ok (l1 ++ .entry name (.symlink (.dir c)) :: l2))).files_count =
        (walk_directory_recursive cfg p (.ok (l1 ++ l2))).files_count +
          (walk_directory_recursive cfg (p ++ [name]) c).files_count ∧
       processEntry cfg p (.entry name (.symlink (.dir c))) =
         ({ WalkResult.empty with
             dirs_count := 1, events := [.NewItemFound] },
           walk_directory_recursive cfg (p ++ [name]) c)) ∧
      (processEntry cfg p (.entry name (.symlink .err)) =
         ({ WalkResult.empty with
             errors := [.MetadataError (p ++ [name])],
             events := [.ErrorEncountered] }, WalkResult.empty) ∧
       (walk_directory_recursive cfg p
          (.ok (l1 ++ .entry name (.symlink .err) :: l2))).files_count =
        (walk_directory_recursive cfg p (.ok (l1 ++ l2))).files_count ∧
       (walk_directory_recursive cfg p
          (.ok (l1 ++ .entry name (.symlink .err) :: l2))).dirs_count =
        (walk_directory_recursive cfg p (.ok (l1 ++ l2))).dirs_count ∧
       (walk_directory_recursive cfg p
          (.ok (l1 ++ .entry name (.symlink .err) :: l2))).current_size =
        (walk_directory_recursive cfg p (.ok (l1 ++ l2))).current_size)) := by
  constructor
  · intro hf
    rw [walk_insert_eq, processEntry_symlink_nofollow cfg p name sm hf,
      walk_ok_eq, walkEntries_append]
    simp [merge_empty_left]
  · intro hf
    refine ⟨⟨?_, ?_, ?_, ?_⟩, ⟨?_, ?_, ?_⟩, ?_, ?_, ?_, ?_⟩
    · rw [walk_insert_eq, processEntry_symlink_file cfg p name sz hf hh,
        walk_ok_eq, walkEntries_append]
      simp [WalkResult.merge, WalkResult.empty]
      omega
    · rw [walk_insert_eq, processEntry_symlink_file cfg p name sz hf hh,
        walk_ok_eq, walkEntries_append]
      simp [WalkResult.merge, WalkResult.empty]
      omega
    · rw [walk_insert_eq, processEntry_symlink_file cfg p name sz hf hh,
        walk_ok_eq, walkEntries_append]
      simp [WalkResult.merge, WalkResult.empty]
    · rw [processEntry_symlink_file cfg p name sz hf hh]
      simp [sendEvents, hp]
    · rw [walk_insert_eq, processEntry_symlink_dir cfg p name c hf hh,
        walk_ok_eq, walkEntries_append]
      simp [WalkResult.merge, WalkResult.empty]
      omega
    · rw [walk_insert_eq, processEntry_symlink_dir cfg p name c hf hh,
        walk_ok_eq, walkEntries_append]
      simp [WalkResult.merge, WalkResult.empty]
      omega
    · rw [processEntry_symlink_dir cfg p name c hf hh]
      simp [sendEvents, hp]
    · rw [processEntry_symlink_err cfg p name hf hh]
      simp [sendEvents, hp]
    · rw [walk_insert_eq, processEntry_symlink_err cfg p name hf hh,
        walk_ok_eq, walkEntries_append]
      simp [WalkResult.merge, WalkResult.empty]
    · rw [walk_insert_eq, processEntry_symlink_err cfg p name hf hh,
        walk_ok_eq, walkEntries_append]
      simp [WalkResult.merge, WalkResult.empty]
    · rw [walk_insert_eq, processEntry_symlink_err cfg p name hf hh,
        walk_ok_eq, walkEntries_append]
      simp [WalkResult.merge, WalkResult.empty]

/-- C6 witness: a symlink to a 7-byte file under the non-following and the
following configurations. -/
theorem claim_C6_witness :
    walk_directory_recursive cfgPlain ["root"]
        (.ok ([] ++ .entry "ln" (.symlink (.file 7)) :: [])) =
      walk_directory_recursive cfgPlain ["root"] (.ok ([] ++ [])) ∧
    (walk_directory_recursive cfgFollow ["root"]
        (.ok ([] ++ .entry "ln" (.symlink (.file 7)) :: []))).files_count =
      (walk_directory_recursive cfgFollow ["root"] (.ok ([] ++ []))).files_count + 1 :=
  ⟨(claim_C6 cfgPlain ["root"] [] [] "ln" (.file 7) 7 .fail (by decide) rfl).1 rfl,
    (((claim_C6 cfgFollow ["root"] [] [] "ln" (.file 7) 7 .fail
      (by decide) rfl).2 rfl).1).1⟩

/-- C9: a followed symlink to a regular file is counted (one file, its size
added once) but its path is never added to `matching_files`, even when the
configured pattern matches the entry's name. -/
theorem claim_C9 (cfg : ScannerConfig) (p : List String)
    (l1 l2 : List EntryResult) (name : String) (sz : Nat) (pat : String → Bool)
    (hf : cfg.follow_symlinks = true) (hh : hiddenSkip cfg name = false)
    (hpat : cfg.file_pattern = some pat) (hm : pat name = true) :
    (walk_directory_recursive cfg p
        (.ok (l1 ++ .entry name (.symlink (.file sz)) :: l2))).matching_files =
      (walk_directory_recursive cfg p (.ok (l1 ++ l2))).matching_files ∧
    (walk_directory_recursive cfg p
        (.ok (l1 ++ .entry name (.symlink (.file sz)) :: l2))).files_count =
      (walk_directory_recursive cfg p (.ok (l1 ++ l2))).files_count + 1 ∧
    (walk_directory_recursive cfg p
        (.ok (l1 ++ .entry name (.symlink (.file sz)) :: l2))).current_size =
      (walk_directory_recursive cfg p (.ok (l1 ++ l2))).current_size + sz := by
  refine ⟨?_, ?_, ?_⟩ <;>
    rw [walk_insert_eq, processEntry_symlink_file cfg p name sz hf hh,
      walk_ok_eq, walkEntries_append] <;>
    simp [WalkResult.merge, WalkResult.empty] <;>
    omega

/-- C9 witness: a symlink named `link.txt` whose name the pattern accepts
is still not matched. -/
theorem claim_C9_witness :
    (walk_directory_recursive cfgFollowPat ["root"]
        (.ok ([] ++ .entry "link.txt" (.symlink (.file 3)) :: []))).matching_files =
      (walk_directory_recursive cfgFollowPat ["root"] (.ok ([] ++ []))).matching_files ∧
    (walk_directory_recursive cfgFollowPat ["root"]
        (.ok ([] ++ .entry "link.txt" (.symlink (.file 3)) :: []))).files_count =
      (walk_directory_recursive cfgFollowPat ["root"] (.ok ([] ++ []))).files_count + 1 ∧
    (walk_directory_recursive cfgFollowPat ["root"]
        (.ok ([] ++ .entry "link.txt" (.symlink (.file 3)) :: []))).current_size =
      (walk_directory_recursive cfgFollowPat ["root"] (.ok ([] ++ []))).current_size + 3 :=
  claim_C9 cfgFollowPat ["root"] [] [] "link.txt" 3
    (fun s => s == "link.txt") rfl (by decide) rfl (by decide)

/-- C10: a `next_entry` failure mid-listing records one IoError tagged with
the containing directory's path, sends one ErrorEncountered event, and the
iteration continues: every other entry's contribution is kept. -/
theorem claim_C10 (cfg : ScannerConfig) (p : List String)
    (l1 l2 : List EntryResult) (hp : cfg.progress_updates = true) :
    processEntry cfg p .fetchErr =
      ({ WalkResult.empty with
          errors := [.IoError p],
          events := [.ErrorEncountered] }, WalkResult.empty) ∧
    (walk_directory_recursive cfg p (.ok (l1 ++ .fetchErr :: l2))).files_count =
      (walk_directory_recursive cfg p (.ok (l1 ++ l2))).files_count ∧
    (walk_directory_recursive cfg p (.ok (l1 ++ .fetchErr :: l2))).dirs_count =
      (walk_directory_recursive cfg p (.ok (l1 ++ l2))).dirs_count ∧
    (walk_directory_recursive cfg p (.ok (l1 ++ .fetchErr :: l2))).current_size =
      (walk_directory_recursive cfg p (.ok (l1 ++ l2))).current_size ∧
    (walk_directory_recursive cfg p (.ok (l1 ++ .fetchErr :: l2))).matching_files =
      (walk_directory_recursive cfg p (.ok (l1 ++ l2))).matching_files ∧
    (walk_directory_recursive cfg p (.ok (l1 ++ .fetchErr :: l2))).errors =
      (walkEntries cfg p l1).1.errors ++ .IoError p ::
        ((walkEntries cfg p l2).1.errors ++
          ((walkEntries cfg p l1).2.errors ++ (walkEntries cfg p l2).2.errors)) := by
  refine ⟨?_, ?_, ?_, ?_, ?_, ?_⟩
  · rw [processEntry_fetchErr]
    simp [sendEvents, hp]
  · rw [walk_insert_eq, processEntry_fetchErr, walk_ok_eq, walkEntries_append]
    simp [WalkResult.merge, WalkResult.empty]
  · rw [walk_insert_eq, processEntry_fetchErr, walk_ok_eq, walkEntries_append]
    simp [WalkResult.merge, WalkResult.empty]
  · rw [walk_insert_eq, processEntry_fetchErr, walk_ok_eq, walkEntries_append]
    simp [WalkResult.merge, WalkResult.empty]
  · rw [walk_insert_eq, processEntry_fetchErr, walk_ok_eq, walkEntries_append]
    simp [WalkResult.merge, WalkResult.empty]
  · rw [walk_insert_eq, processEntry_fetchErr]
    simp [WalkResult.merge, WalkResult.empty]

/-- C10 witness: a fetch failure beside one readable 10-byte file. -/
theorem claim_C10_witness :
    processEntry cfgPlain ["root"] .fetchErr =
      ({ WalkResult.empty with
          errors := [.IoError ["root"]],
          events := [.ErrorEncountered] }, WalkResult.empty) ∧
    (walk_directory_recursive cfgPlain ["root"]
        (.ok ([.entry "a.txt" (.file (.ok 10))] ++ .fetchErr :: []))).files_count =
      (walk_directory_recursive cfgPlain ["root"]
        (.ok ([.entry "a.txt" (.file (.ok 10))] ++ []))).files_count ∧
    (walk_directory_recursive cfgPlain ["root"]
        (.ok ([.entry "a.txt" (.file (.ok 10))] ++ .fetchErr :: []))).dirs_count =
      (walk_directory_recursive cfgPlain ["root"]
        (.ok ([.entry "a.txt" (.file (.ok 10))] ++ []))).dirs_count ∧
    (walk_directory_recursive cfgPlain ["root"]
        (.ok ([.entry "a.txt" (.file (.ok 10))] ++ .fetchErr :: []))).current_size =
      (walk_directory_recursive cfgPlain ["root"]
        (.ok ([.entry "a.txt" (.file (.ok 10))] ++ []))).current_size ∧
    (walk_directory_recursive cfgPlain ["root"]
        (.ok ([.entry "a.txt" (.file (.ok 10))] ++ .fetchErr :: []))).matching_files =
      (walk_directory_recursive cfgPlain ["root"]
        (.ok ([.entry "a.txt" (.file (.ok 10))] ++ []))).matching_files ∧
    (walk_directory_recursive cfgPlain ["root"]
        (.ok ([.entry "a.txt" (.file (.ok 10))] ++ .fetchErr :: []))).errors =
      (walkEntries cfgPlain ["root"] [.entry "a.txt" (.file (.ok 10))]).1.errors ++
        .IoError ["root"] ::
          ((walkEntries cfgPlain ["root"] ([] : List EntryResult)).1.errors ++
            ((walkEntries cfgPlain ["root"] [.entry "a.txt" (.file (.ok 10))]).2.errors ++
              (walkEntries cfgPlain ["root"] ([] : List EntryResult)).2.errors)) :=
  claim_C10 cfgPlain ["root"] [.entry "a.txt" (.file (.ok 10))] [] rfl

/-- C7: `run_scan` validates the root before anything else: a metadata
failure yields `IoError`, a non-directory root yields `NotADirectory`, each
returned immediately with no traversal attempted. -/
theorem claim_C7 (cfg : ScannerConfig) :
    run_scan cfg .metaErr = Except.error (.IoError cfg.target_path) ∧
    run_scan cfg .notDir = Except.error (.NotADirectory cfg.target_path) :=
  ⟨rfl, rfl⟩

/-- C8: in every state reachable during a scan, at most
`max_concurrent_tasks` directory-listing operations execute simultaneously,
for any configured limit ≥ 1: a task holds its semaphore permit exactly
while in the listing phase, acquired before `read_dir` and dropped before
any child is spawned. -/
theorem claim_C8 (cfg : ScannerConfig) (root : ReadDirResult) (s : List Phase)
    (hpos : 1 ≤ cfg.max_concurrent_tasks)
    (hreach : ReachableState cfg root s) :
    listingCount s ≤ cfg.max_concurrent_tasks :=
  reachable_listing_bound cfg root s hreach

/-- C8 witness: a concrete three-state schedule at limit 1 (spawn root,
acquire, list, release) stays within the bound. -/
theorem claim_C8_witness : listingCount [Phase.classified []] ≤ 1 :=
  claim_C8 cfgOne .fail [Phase.classified []] (by decide)
    (Relation.ReflTransGen.tail
      (Relation.ReflTransGen.tail Relation.ReflTransGen.refl
        (Step.acquire [Phase.pending .fail] 0 .fail rfl (by decide)))
      (Step.release [Phase.listing .fail] 0 .fail rfl))

end DiskScanner
